import Mathlib

/-!
Verification development for the SelfHAR experiment-orchestration pipeline
(`run_self_har.py`, `self_har_models.py`).

Shallow embedding conventions:
* Python dicts (experiment configs, the `prepared_datasets` cache) are
  association lists with first-match lookup and update-in-place insert.
* JSON / Python scalar values stored in a config are an inductive
  `ConfigValue`; floats are modelled as `Rat` (the claims only concern
  exact arithmetic laws such as halving, never float rounding).
* External TensorFlow / dataset services (model building, training,
  prediction, pickle loading) are an opaque oracle record `Env`; the
  orchestration control flow, config mutations, cache mutations and the
  emitted event trace are embedded faithfully from the source.
* A Python runtime error (UnboundLocalError / TypeError / IndexError /
  KeyError) is a `crash` outcome.
-/

/-- Scalar evaluation metrics returned by `evaluate_model_simple`
(external); the confusion matrix is carried as an opaque handle. -/
structure EvalResults where
  f1Macro : Rat
  f1Micro : Rat
  f1Weighted : Rat
  precisionV : Rat
  recallV : Rat
  kappaV : Rat
  confusionId : Nat
deriving DecidableEq, Repr

/-- A value stored in an experiment-config dict. -/
inductive ConfigValue where
  | s (v : String)
  | i (v : Int)
  | r (v : Rat)
  | b (v : Bool)
  | emptyMap
  | eval (v : EvalResults)
deriving DecidableEq, Repr

/-- First-match association-list lookup (Python dict read). -/
def alookup {α : Type} (l : List (String × α)) (k : String) : Option α :=
  match l with
  | [] => none
  | (k2, v) :: rest => if k2 = k then some v else alookup rest k

/-- Update-in-place-or-append insert (Python dict write). -/
def ainsert {α : Type} (l : List (String × α)) (k : String) (v : α) :
    List (String × α) :=
  match l with
  | [] => [(k, v)]
  | (k2, v2) :: rest =>
      if k2 = k then (k2, v) :: rest else (k2, v2) :: ainsert rest k v

abbrev Config := List (String × ConfigValue)

abbrev Prepared := List (String × Nat)

/-- The default table of `get_config_default_value_if_none`
(run_self_har.py lines 184-212).  The `tag` default is the
current-timestamp string, passed in as `now`.  An entry outside the table
leaves Python's `default_value` unbound (UnboundLocalError): `none`. -/
def defaultFor (now : String) (entry : String) : Option ConfigValue :=
  if entry = "type" then some (ConfigValue.s "none")
  else if entry = "tag" then some (ConfigValue.s now)
  else if entry = "previous_config_offset" then some (ConfigValue.i 0)
  else if entry = "initial_learning_rate" then some (ConfigValue.r (3 / 10000))
  else if entry = "epochs" then some (ConfigValue.i 30)
  else if entry = "batch_size" then some (ConfigValue.i 300)
  else if entry = "optimizer" then some (ConfigValue.s "adam")
  else if entry = "self_training_samples_per_class" then some (ConfigValue.i 10000)
  else if entry = "self_training_minimum_confidence" then some (ConfigValue.r 0)
  else if entry = "self_training_plurality_only" then some (ConfigValue.b true)
  else if entry = "trained_model_path" then some (ConfigValue.s "")
  else if entry = "trained_model_type" then some (ConfigValue.s "unknown")
  else if entry = "eval_results" then some ConfigValue.emptyMap
  else if entry = "eval_har" then some (ConfigValue.b false)
  else none

/-- run_self_har.py lines 180-218.  If `entry` is present its stored value
is returned and the config is unchanged; otherwise the default is
computed and, when `setValue` is true, memoized into the config.  An
entry with no listed default crashes (`none`). -/
def get_config_default_value_if_none (now : String) (cfg : Config)
    (entry : String) (setValue : Bool) : Option (ConfigValue × Config) :=
  match alookup cfg entry with
  | some v => some (v, cfg)
  | none =>
      match defaultFor now entry with
      | none => none
      | some d => if setValue then some (d, ainsert cfg entry d) else some (d, cfg)

/-- Python f-string rendering of a config value (used when a value is
interpolated into a tag or a file path). -/
def display : ConfigValue → String
  | ConfigValue.s v => v
  | ConfigValue.i v => toString v
  | ConfigValue.r v => toString v
  | ConfigValue.b v => if v then "True" else "False"
  | ConfigValue.emptyMap => "\x7b\x7d"
  | ConfigValue.eval _ => "dict"

/-- Python truthiness of a config value (`if value:`). -/
def truthy : ConfigValue → Bool
  | ConfigValue.s v => v ≠ ""
  | ConfigValue.i v => v ≠ 0
  | ConfigValue.r v => v ≠ 0
  | ConfigValue.b v => v
  | ConfigValue.emptyMap => false
  | ConfigValue.eval _ => true

/-- Python `value == 0` (ints, floats and booleans compare equal to 0). -/
def py_eq_zero : ConfigValue → Bool
  | ConfigValue.i v => v = 0
  | ConfigValue.r v => v = 0
  | ConfigValue.b v => v = false
  | _ => false

/-- A config value usable as a Python list index in `i - offset`
(ints, and booleans which are ints in Python); anything else raises a
TypeError at the subtraction or the indexing. -/
def as_index_int : ConfigValue → Option Int
  | ConfigValue.i v => some v
  | ConfigValue.b true => some 1
  | _ => none

/-- A config value usable as a learning rate (Python would accept any
numeric for `Adam(learning_rate=...)`). -/
def asRat : ConfigValue → Option Rat
  | ConfigValue.r v => some v
  | ConfigValue.i v => some v
  | _ => none

/-- Python list indexing `xs[k]` over a list of length `n`: non-negative
indices in range, negative indices counted from the end, anything else an
IndexError. Returns the absolute position. -/
def pyIndex (n : Nat) (k : Int) : Option Nat :=
  if 0 ≤ k ∧ k < (n : Int) then some k.toNat
  else if -(n : Int) ≤ k ∧ k < 0 then some ((n : Int) + k).toNat
  else none

/-- Resolve field `e` of the config at index `j` of the experiment list,
writing the (possibly memoized) config back at `j` — Python configs are
mutable dicts held by the list, so `get_config_default_value_if_none`
calls mutate the list entry in place. -/
def resolveAt (now : String) (configs : List Config) (j : Nat) (e : String)
    (setValue : Bool) : Option (ConfigValue × List Config) :=
  match get_config_default_value_if_none now (configs.getD j []) e setValue with
  | none => none
  | some (v, c2) => some (v, configs.set j c2)

/-- run_self_har.py lines 350-353: resolve `previous_config_offset`
(memoizing the default 0), yield no dependency when the resolved value
compares equal to 0, otherwise index `experiment_configs[i - offset]`
with Python list-index semantics.  Returns the absolute index of the
previous config (it must stay a reference into the shared list, since
later resolver calls mutate it). -/
def resolve_previous_config (now : String) (configs : List Config) (i : Nat) :
    Option (Option Nat × List Config) :=
  match resolveAt now configs i "previous_config_offset" true with
  | none => none
  | some (offV, configs2) =>
      if py_eq_zero offV then some (none, configs2)
      else
        match as_index_int offV with
        | none => none
        | some off =>
            match pyIndex configs2.length ((i : Int) - off) with
            | none => none
            | some j => some (some j, configs2)

/-- Learning-rate schedule of the `transform_train` branch
(run_self_har.py lines 418-422): `initial_learning_rate * 0.5 ** (epoch // 15)`. -/
def training_rate_schedule_transform (initialLearningRate : Rat) (epoch : Nat) : Rat :=
  initialLearningRate * (1 / 2 : Rat) ^ (epoch / 15)

/-- Learning-rate schedule of the `har_full_train` / `har_full_fine_tune` /
`har_linear_train` branch (lines 485-489): constant. -/
def training_rate_schedule_har (initialLearningRate : Rat) (_epoch : Nat) : Rat :=
  initialLearningRate

/-- Learning-rate schedule of the `self_training` / `self_har` branch
(lines 555-559): hard-coded `0.0003 * 0.5 ** (epoch // 15)`. -/
def training_rate_schedule_self (epoch : Nat) : Rat :=
  (3 / 10000 : Rat) * (1 / 2 : Rat) ^ (epoch / 15)

/-- Symbolic form of the learning-rate schedule a branch hands to the
trainer, recorded in the event trace. -/
inductive Sched where
  | transformDecay (ilr : Rat)
  | constantRate (ilr : Rat)
  | selfDecay
deriving DecidableEq, Repr

def Sched.rate : Sched → Nat → Rat
  | Sched.transformDecay ilr, e => training_rate_schedule_transform ilr e
  | Sched.constantRate ilr, e => training_rate_schedule_har ilr e
  | Sched.selfDecay, e => training_rate_schedule_self e

/-- Observable actions of one cross-validation fold's experiment loop. -/
inductive Event where
  | resolvedPrev (i : Nat) (prev : Option Nat)
  | loadPool (i : Nat)
  | freezeCall (i : Nat) (boundary : Option Nat)
  | trainRun (i : Nat) (sched : Sched)
  | evalMissing (i : Nat)
  | selfMissing (i : Nat)
  | evalWritten (i : Nat)
  | crashed (i : Nat)
deriving DecidableEq, Repr

/-- Oracle for the external TensorFlow / dataset services.  Model and
dataset handles are opaque `Nat`s; the orchestration core only threads
them around. -/
structure Env where
  loadModel : String → Nat
  extractHarHandle : Nat → Nat
  extractCoreHandle : Nat → Nat
  newCoreModel : Nat
  attachMultitaskHandle : Nat → Nat
  attachMultitaskHarHandle : Nat → Nat
  attachFullHarHandle : Nat → Nat
  attachLinearHandle : Nat → Nat
  trainBestFileName : Nat → String → String
  predictHandle : Nat → Nat → Nat
  evalOnLabelledTest : Nat → Nat → EvalResults
  evalSimpleUnl : Nat → Nat → EvalResults
  loadUnlWindows : String → Nat
  loadUnlLabel : String → Nat
  labelledTrainX : Nat → Nat
  repeatLabelled : Nat → Nat
  combineUnl : Nat → Nat → Nat
  pickTopSamples : Nat → Nat → Nat
  buildMultitaskData : Nat → Nat

/-- Run-level constants: the fold timestamp, the config file tag and
`args.unlabelled_dataset_path`. -/
structure RunParams where
  now : String
  fileTag : String
  unlabelledPath : String

def lookupPD (pd : Prepared) (k : String) : Nat := (alookup pd k).getD 0

def containsPD (pd : Prepared) (k : String) : Bool := (alookup pd k).isSome

/-- run_self_har.py lines 164-178.  Loads the unlabelled windows,
assigning them into the CALLER's `prepared_datasets` dict (line 168
mutates the dict passed by reference, line 170 truncates in place —
collapsed into one opaque load here), then returns a fresh merged dict
additionally holding `labelled_x_repeat` and `unlabelled_combined`.
Result: (caller dict after mutation, returned merged dict, label data). -/
def load_unlabelled_dataset (env : Env) (pd : Prepared) (path : String) :
    Prepared × Prepared × Nat :=
  let unl := env.loadUnlWindows path
  let lbl := env.loadUnlLabel path
  let pdMut := ainsert pd "unlabelled" unl
  let labX := env.labelledTrainX (lookupPD pdMut "labelled")
  let rep := env.repeatLabelled labX
  let comb := env.combineUnl unl rep
  let merged := ainsert (ainsert pdMut "labelled_x_repeat" rep) "unlabelled_combined" comb
  (pdMut, merged, lbl)

/-- The guarded lazy population of the unlabelled pool
(`if 'unlabelled' not in prepared_datasets:` — lines 392-393 and
525-526); the caller rebinds `prepared_datasets` to the merged result.
The boolean reports whether the loader actually ran. -/
def ensure_unlabelled (env : Env) (pd : Prepared) (path : String) :
    Prepared × Bool :=
  if containsPD pd "unlabelled" then (pd, false)
  else ((load_unlabelled_dataset env pd path).2.1, true)

/-- The recurring guard
`previous_config is None or get_config_default_value_if_none(previous_config,
'trained_model_path', set_value=False) == ''` (lines 361, 395, 445, 528).
`set_value=False`, so no memoization happens. -/
def missing_previous_model (now : String) (configs : List Config)
    (prev : Option Nat) : Bool :=
  match prev with
  | none => true
  | some j =>
      match get_config_default_value_if_none now (configs.getD j []) "trained_model_path" false with
      | some (v, _) => v = ConfigValue.s ""
      | none => false  -- unreachable: trained_model_path has a listed default

/-- `previous_config['trained_model_path']` rendered as a path string
(only ever consulted when `missing_previous_model` is false). -/
def previous_path (configs : List Config) (prev : Option Nat) : String :=
  match prev with
  | none => ""
  | some j => display ((alookup (configs.getD j []) "trained_model_path").getD (ConfigValue.s ""))

inductive StepOutcome where
  | next
  | abortFold
  | crash
deriving DecidableEq, Repr

structure StepRes where
  outcome : StepOutcome
  configs : List Config
  prepared : Prepared
  events : List Event
deriving DecidableEq, Repr

structure BranchRes where
  configs : List Config
  prepared : Prepared
  events : List Event
deriving DecidableEq, Repr

/-- The three labelled-training experiment modes of lines 442-520. -/
inductive HarMode where
  | fullTrain
  | fullFineTune
  | linearTrain
deriving DecidableEq, Repr

/-- The `set_freeze_layers` boundary each mode passes
(lines 470, 474, 477 resp. 481-483): `har_linear_train` no boundary,
`har_full_train` 0, `har_full_fine_tune` 5. -/
def freeze_boundary : HarMode → Option Nat
  | HarMode.linearTrain => none
  | HarMode.fullTrain => some 0
  | HarMode.fullFineTune => some 5

/-- run_self_har.py lines 359-378, the `eval_har` experiment type.
If the previous artifact is missing: log and `continue` (skip to the next
experiment, `eval_results` untouched).  Otherwise resolve the previous
config's `trained_model_type` (memoizing, i.e. mutating the previous
config), load the model (extracting the HAR sub-model from a composite),
evaluate on the labelled test split and write `eval_results` back.  A
previous type that is neither recognised tag leaves Python's `model`
variable unbound: crash. -/
def eval_har_branch (env : Env) (pr : RunParams) (configs : List Config)
    (prepared : Prepared) (i : Nat) (prev : Option Nat) : StepRes :=
  if missing_previous_model pr.now configs prev then
    StepRes.mk StepOutcome.next configs prepared [Event.evalMissing i]
  else
    match prev with
    | none => StepRes.mk StepOutcome.crash configs prepared [Event.crashed i]
    | some j =>
        match resolveAt pr.now configs j "trained_model_type" true with
        | none => StepRes.mk StepOutcome.crash configs prepared [Event.crashed i]
        | some (tmt, configs1) =>
            if tmt = ConfigValue.s "har_model" ∨ tmt = ConfigValue.s "transform_with_har_model" then
              let pm := env.loadModel (previous_path configs1 (some j))
              let model := if tmt = ConfigValue.s "har_model" then pm else env.extractHarHandle pm
              let er := env.evalOnLabelledTest model (lookupPD prepared "labelled")
              let configs2 := configs1.set i (ainsert (configs1.getD i []) "eval_results" (ConfigValue.eval er))
              StepRes.mk StepOutcome.next configs2 prepared [Event.evalWritten i]
            else
              StepRes.mk StepOutcome.crash configs1 prepared [Event.crashed i]

/-- run_self_har.py lines 391-440, the `transform_train` branch: lazily
populate the unlabelled pool, reuse the previous artifact's feature
extractor when available else build a fresh core model, attach the
multi-task transformation heads, train with the step-decayed schedule and
record the artifact as `transform_model`. -/
def transform_train_branch (env : Env) (pr : RunParams) (tag : String)
    (configs : List Config) (prepared : Prepared) (i : Nat)
    (prev : Option Nat) (ilr : Rat) : BranchRes :=
  let ep := ensure_unlabelled env prepared pr.unlabelledPath
  let poolEvents := if ep.2 then [Event.loadPool i] else []
  let coreModel :=
    if missing_previous_model pr.now configs prev then env.newCoreModel
    else env.extractCoreHandle (env.loadModel (previous_path configs prev))
  let transformModel := env.attachMultitaskHandle coreModel
  let best := env.trainBestFileName transformModel tag
  let configs1 := configs.set i
    (ainsert (ainsert (configs.getD i []) "trained_model_path" (ConfigValue.s best))
      "trained_model_type" (ConfigValue.s "transform_model"))
  BranchRes.mk configs1 ep.1 (poolEvents ++ [Event.trainRun i (Sched.transformDecay ilr)])

/-- run_self_har.py lines 442-520, the three labelled-training modes:
select the model to train (fresh core, extracted core, the previous HAR
model, or the HAR sub-model of a composite — resolving and thereby
memoizing the previous config's `trained_model_type` on the non-linear
paths), freeze layers according to the mode, train with the constant
schedule and record the artifact as `har_model`.  (The
`"Student_Fine_Tune" in tag` split at line 492 runs the identical
training call in both arms.) -/
def har_branch (env : Env) (pr : RunParams) (tag : String)
    (configs : List Config) (prepared : Prepared) (i : Nat)
    (prev : Option Nat) (mode : HarMode) (ilr : Rat) : BranchRes :=
  let sel : Nat × List Config :=
    if missing_previous_model pr.now configs prev then
      (match mode with
       | HarMode.linearTrain => env.attachLinearHandle env.newCoreModel
       | _ => env.attachFullHarHandle env.newCoreModel, configs)
    else
      match prev with
      | some j =>
          let pm := env.loadModel (previous_path configs (some j))
          (match mode with
           | HarMode.linearTrain => (env.attachLinearHandle (env.extractCoreHandle pm), configs)
           | _ =>
               match resolveAt pr.now configs j "trained_model_type" true with
               | some (tmt, configs1) =>
                   if tmt = ConfigValue.s "har_model" then (pm, configs1)
                   else if tmt = ConfigValue.s "transform_with_har_model" then
                     (env.extractHarHandle pm, configs1)
                   else (env.attachFullHarHandle (env.extractCoreHandle pm), configs1)
               | none => (0, configs))  -- unreachable: listed default
      | none => (0, configs)  -- unreachable: covered by missing_previous_model
  let best := env.trainBestFileName sel.1 tag
  let configs1 := sel.2.set i
    (ainsert (ainsert (sel.2.getD i []) "trained_model_path" (ConfigValue.s best))
      "trained_model_type" (ConfigValue.s "har_model"))
  BranchRes.mk configs1 prepared
    [Event.freezeCall i (freeze_boundary mode), Event.trainRun i (Sched.constantRate ilr)]

/-- run_self_har.py lines 524-607, the `self_training` / `self_har`
branch: lazily populate the unlabelled pool, then — if the previous
artifact is missing — log and `break`, aborting the remaining experiments
of the fold.  Otherwise run teacher inference over the combined pool,
resolve (memoizing) the three self-training hyper-parameters, pick the
pseudo-labelled subset, build the student on a fresh core model and train
it with the hard-coded decayed schedule, recording the artifact as
`har_model` (`self_training`) or `transform_with_har_model` (`self_har`). -/
def self_branch (env : Env) (pr : RunParams) (tag : String)
    (configs : List Config) (prepared : Prepared) (i : Nat)
    (prev : Option Nat) (selfHar : Bool) : StepRes :=
  let ep := ensure_unlabelled env prepared pr.unlabelledPath
  let poolEvents := if ep.2 then [Event.loadPool i] else []
  if missing_previous_model pr.now configs prev then
    StepRes.mk StepOutcome.abortFold configs ep.1 (poolEvents ++ [Event.selfMissing i])
  else
    let teacher := env.loadModel (previous_path configs prev)
    let comb := lookupPD ep.1 "unlabelled_combined"
    let preds := env.predictHandle teacher comb
    match resolveAt pr.now configs i "self_training_samples_per_class" true with
    | none => StepRes.mk StepOutcome.crash configs ep.1 (poolEvents ++ [Event.crashed i])
    | some (_, cA) =>
    match resolveAt pr.now cA i "self_training_minimum_confidence" true with
    | none => StepRes.mk StepOutcome.crash cA ep.1 (poolEvents ++ [Event.crashed i])
    | some (_, cB) =>
    match resolveAt pr.now cB i "self_training_plurality_only" true with
    | none => StepRes.mk StepOutcome.crash cB ep.1 (poolEvents ++ [Event.crashed i])
    | some (_, cC) =>
        let selfLab := env.pickTopSamples comb preds
        let _mt := env.buildMultitaskData selfLab
        let student :=
          if selfHar then env.attachMultitaskHarHandle env.newCoreModel
          else env.attachFullHarHandle env.newCoreModel
        let best := env.trainBestFileName student tag
        let tmtV := if selfHar then "transform_with_har_model" else "har_model"
        let configs1 := cC.set i
          (ainsert (ainsert (cC.getD i []) "trained_model_path" (ConfigValue.s best))
            "trained_model_type" (ConfigValue.s tmtV))
        StepRes.mk StepOutcome.next configs1 ep.1 (poolEvents ++ [Event.trainRun i Sched.selfDecay])

/-- run_self_har.py lines 610-745, the trailing `eval_har`-flag block run
after every non-`eval_har` branch: when the config's `eval_har` resolves
truthy (no memoization), load this experiment's own artifact (KeyError
crash when `trained_model_path` was never written), evaluate on the
labelled test split and — for the designated experiment indices 2 and 3 —
UNCONDITIONALLY re-invoke `load_unlabelled_dataset` (lines 686-690 and
729-733), which re-populates the caller dict's `unlabelled` entry, then
run and score teacher inference over it; finally write `eval_results`.
(The `i == 3 and percentage == 0.5` block, lines 624-682, only performs
external CSV labelling I/O and is not modelled; the per-fold `ev`/`conv`/
`y_true`/`y_pred` reporter accumulators are embedded separately in the
aggregator section.) -/
def eval_flag_tail (env : Env) (pr : RunParams) (configs : List Config)
    (prepared : Prepared) (i : Nat) : StepRes :=
  match get_config_default_value_if_none pr.now (configs.getD i []) "eval_har" false with
  | none => StepRes.mk StepOutcome.crash configs prepared [Event.crashed i]
  | some (ehV, _) =>
      if truthy ehV then
        match resolveAt pr.now configs i "trained_model_type" true with
        | none => StepRes.mk StepOutcome.crash configs prepared [Event.crashed i]
        | some (tmt, configs1) =>
            if tmt = ConfigValue.s "har_model" ∨ tmt = ConfigValue.s "transform_with_har_model" then
              match alookup (configs1.getD i []) "trained_model_path" with
              | none => StepRes.mk StepOutcome.crash configs1 prepared [Event.crashed i]
              | some pv =>
                  let pm := env.loadModel (display pv)
                  let best := if tmt = ConfigValue.s "har_model" then pm else env.extractHarHandle pm
                  let er := env.evalOnLabelledTest best (lookupPD prepared "labelled")
                  let configs2 := configs1.set i
                    (ainsert (configs1.getD i []) "eval_results" (ConfigValue.eval er))
                  if i = 2 ∨ i = 3 then
                    let r := load_unlabelled_dataset env prepared pr.unlabelledPath
                    let _classes := env.predictHandle best (lookupPD r.2.1 "unlabelled")
                    let _ev := env.evalSimpleUnl _classes r.2.2
                    StepRes.mk StepOutcome.next configs2 r.1 [Event.loadPool i, Event.evalWritten i]
                  else
                    StepRes.mk StepOutcome.next configs2 prepared [Event.evalWritten i]
            else
              StepRes.mk StepOutcome.next configs1 prepared []
      else
        StepRes.mk StepOutcome.next configs prepared []

/-- Compose a branch result with the trailing `eval_har`-flag block
(a `break` or crash in the branch skips the tail, as in the source). -/
def tail_after (env : Env) (pr : RunParams) (r : StepRes) (i : Nat) : StepRes :=
  match r.outcome with
  | StepOutcome.next =>
      let t := eval_flag_tail env pr r.configs r.prepared i
      StepRes.mk t.outcome t.configs t.prepared (r.events ++ t.events)
  | _ => r

/-- run_self_har.py lines 357-745 after dependency resolution: resolve
the tag (memoizing), dispatch `eval_har` immediately; otherwise resolve
(memoizing) `initial_learning_rate` / `epochs` / `batch_size` /
`optimizer` (lines 381-388; a non-numeric learning rate or an unknown
optimizer name crashes at optimizer construction resp. first use), run
the type's branch and then the trailing `eval_har`-flag block.  An
unrecognised type string falls through every branch straight to the
trailing block. -/
def dispatch_experiment (env : Env) (pr : RunParams) (configs : List Config)
    (prepared : Prepared) (i : Nat) (prev : Option Nat) (tyV : ConfigValue) : StepRes :=
  match resolveAt pr.now configs i "tag" true with
  | none => StepRes.mk StepOutcome.crash configs prepared [Event.crashed i]
  | some (tagV, configs3) =>
      let tag := pr.now ++ "_" ++ pr.fileTag ++ "_" ++ display tagV
      if tyV = ConfigValue.s "eval_har" then
        eval_har_branch env pr configs3 prepared i prev
      else
        match resolveAt pr.now configs3 i "initial_learning_rate" true with
        | none => StepRes.mk StepOutcome.crash configs3 prepared [Event.crashed i]
        | some (ilrV, c4) =>
        match resolveAt pr.now c4 i "epochs" true with
        | none => StepRes.mk StepOutcome.crash c4 prepared [Event.crashed i]
        | some (_, c5) =>
        match resolveAt pr.now c5 i "batch_size" true with
        | none => StepRes.mk StepOutcome.crash c5 prepared [Event.crashed i]
        | some (_, c6) =>
        match resolveAt pr.now c6 i "optimizer" true with
        | none => StepRes.mk StepOutcome.crash c6 prepared [Event.crashed i]
        | some (optV, c7) =>
        match asRat ilrV with
        | none => StepRes.mk StepOutcome.crash c7 prepared [Event.crashed i]
        | some ilr =>
            if optV = ConfigValue.s "adam" ∨ optV = ConfigValue.s "sgd" then
              if tyV = ConfigValue.s "transform_train" then
                let b := transform_train_branch env pr tag c7 prepared i prev ilr
                tail_after env pr (StepRes.mk StepOutcome.next b.configs b.prepared b.events) i
              else if tyV = ConfigValue.s "har_full_train" then
                let b := har_branch env pr tag c7 prepared i prev HarMode.fullTrain ilr
                tail_after env pr (StepRes.mk StepOutcome.next b.configs b.prepared b.events) i
              else if tyV = ConfigValue.s "har_full_fine_tune" then
                let b := har_branch env pr tag c7 prepared i prev HarMode.fullFineTune ilr
                tail_after env pr (StepRes.mk StepOutcome.next b.configs b.prepared b.events) i
              else if tyV = ConfigValue.s "har_linear_train" then
                let b := har_branch env pr tag c7 prepared i prev HarMode.linearTrain ilr
                tail_after env pr (StepRes.mk StepOutcome.next b.configs b.prepared b.events) i
              else if tyV = ConfigValue.s "self_training" ∨ tyV = ConfigValue.s "self_har" then
                let b := self_branch env pr tag c7 prepared i prev (tyV = ConfigValue.s "self_har")
                match b.outcome with
                | StepOutcome.next => tail_after env pr b i
                | _ => b
              else
                tail_after env pr (StepRes.mk StepOutcome.next c7 prepared []) i
            else
              StepRes.mk StepOutcome.crash c7 prepared [Event.crashed i]

/-- One iteration of the experiment loop (lines 335-745): resolve `type`
(memoizing), skip `none` experiments, resolve the previous-config
dependency — emitted as the FIRST event of every non-`none` step, before
any branch executes — then dispatch. -/
def experimentStep (env : Env) (pr : RunParams) (configs : List Config)
    (prepared : Prepared) (i : Nat) : StepRes :=
  match resolveAt pr.now configs i "type" true with
  | none => StepRes.mk StepOutcome.crash configs prepared [Event.crashed i]
  | some (tyV, configs1) =>
      if tyV = ConfigValue.s "none" then
        StepRes.mk StepOutcome.next configs1 prepared []
      else
        match resolve_previous_config pr.now configs1 i with
        | none => StepRes.mk StepOutcome.crash configs1 prepared [Event.crashed i]
        | some (prev, configs2) =>
            let r := dispatch_experiment env pr configs2 prepared i prev tyV
            StepRes.mk r.outcome r.configs r.prepared (Event.resolvedPrev i prev :: r.events)

/-- State of one fold of the experiment loop. -/
structure FoldSt where
  configs : List Config
  prepared : Prepared
  trace : List Event
deriving DecidableEq, Repr

/-- The experiment loop from index `i` with explicit fuel: a `next`
outcome proceeds to the following experiment, a `break`
(`abortFold`) or a Python error ends the fold's loop immediately. -/
def runSteps (env : Env) (pr : RunParams) : Nat → Nat → FoldSt → FoldSt
  | 0, _, st => st
  | fuel + 1, i, st =>
      if i < st.configs.length then
        let r := experimentStep env pr st.configs st.prepared i
        match r.outcome with
        | StepOutcome.next =>
            runSteps env pr fuel (i + 1) (FoldSt.mk r.configs r.prepared (st.trace ++ r.events))
        | _ => FoldSt.mk r.configs r.prepared (st.trace ++ r.events)
      else st

/-- One fold's full experiment loop (`for i, experiment_config in
enumerate(experiment_configs):`). -/
def runExperiments (env : Env) (pr : RunParams) (configs : List Config)
    (prepared : Prepared) : FoldSt :=
  runSteps env pr configs.length 0 (FoldSt.mk configs prepared [])

/-- A Keras layer as it appears in a functional model's `layers` list
(self_har_models.py); a nested model is itself a layer, carrying its own
layer list. -/
inductive KLayer where
  | inputLayer
  | conv1d (filters kernelSize : Nat)
  | dropoutL (rate : Rat)
  | globalMaxPool
  | denseRelu (units : Nat)
  | dense (units : Nat)
  | softmaxOut (nm : Option String)
  | sigmoidDense (nm : String)
  | subModel (layers : List KLayer)

/-- An output head of a functional model, in `model.outputs` order. -/
inductive OutputHead where
  | taskOut (nm : String)
  | harOut
deriving DecidableEq, Repr

/-- self_har_models.py lines 25-73: the TPN convolutional core
(layer list of the functional model). -/
def create_1d_conv_core_model : List KLayer :=
  [KLayer.inputLayer,
   KLayer.conv1d 32 24, KLayer.dropoutL (1 / 10),
   KLayer.conv1d 64 16, KLayer.dropoutL (1 / 10),
   KLayer.conv1d 96 8, KLayer.dropoutL (1 / 10),
   KLayer.globalMaxPool]

/-- self_har_models.py lines 76-77: `composite_model.layers[1]`. -/
def extract_core_model (compositeModel : List KLayer) : Option KLayer :=
  compositeModel.get? 1

/-- self_har_models.py lines 101-145: Input → core model → Dense(num_units,
relu) → Dense(output_shape) → Softmax.  In Keras functional-graph order
the nested core model is the layer at index 1. -/
def attach_full_har_classification_head (coreModel : List KLayer)
    (outputShape numUnits : Nat) : List KLayer :=
  [KLayer.inputLayer, KLayer.subModel coreModel,
   KLayer.denseRelu numUnits, KLayer.dense outputShape, KLayer.softmaxOut none]

/-- self_har_models.py lines 148-185: Input → core model →
Dense(output_shape) → Softmax. -/
def attach_linear_classification_head (coreModel : List KLayer)
    (outputShape : Nat) : List KLayer :=
  [KLayer.inputLayer, KLayer.subModel coreModel,
   KLayer.dense outputShape, KLayer.softmaxOut none]

/-- self_har_models.py lines 188-218: Input → core model → per task
(Dense(256, relu) → Dense(1, sigmoid, name=task)), then — iff
`with_har_head` — Dense(num_units_har, relu) → Dense(har_output_shape) →
Softmax(name='har') appended after the loop.  Returns (layer list,
`model.outputs` head list in order). -/
def attach_multitask_transform_head (coreModel : List KLayer)
    (outputTasks : List String) (withHarHead : Bool)
    (harOutputShape numUnitsHar : Nat) : List KLayer × List OutputHead :=
  let taskLayers := outputTasks.flatMap
    (fun t => [KLayer.denseRelu 256, KLayer.sigmoidDense t])
  let harLayers :=
    if withHarHead then
      [KLayer.denseRelu numUnitsHar, KLayer.dense harOutputShape,
       KLayer.softmaxOut (some "har")]
    else []
  let outs := outputTasks.map OutputHead.taskOut ++
    (if withHarHead then [OutputHead.harOut] else [])
  ([KLayer.inputLayer, KLayer.subModel coreModel] ++ taskLayers ++ harLayers, outs)

/-- self_har_models.py lines 79-88: `extract_har_model` picks
`multitask_model.outputs[output_index]` (default -1, Python indexing) and
builds a model with that single output. -/
def extract_har_model (outputs : List OutputHead) (outputIndex : Int) :
    Option (List OutputHead) :=
  (pyIndex outputs.length outputIndex).bind
    (fun j => (outputs.get? j).map (fun h => [h]))

/-- self_har_models.py lines 90-98: with no boundary every layer becomes
non-trainable; with boundary `n` the layers before index `n` become
non-trainable and the layers from index `n` on become trainable.  A layer
is (identity, trainable-flag). -/
def set_freeze_layers {α : Type} (layers : List (α × Bool))
    (numFreezeLayerIndex : Option Nat) : List (α × Bool) :=
  match numFreezeLayerIndex with
  | none => layers.map (fun l => (l.1, false))
  | some n =>
      (layers.take n).map (fun l => (l.1, false)) ++
      (layers.drop n).map (fun l => (l.1, true))

/-- The six scalar metric keys accumulated by the reporter
(run_self_har.py lines 270-273: F1 Macro / F1 Micro / F1 Weighted /
Precision / Recall / Kappa; the Confusion Matrix entry is aggregated
separately). -/
inductive MetricKey where
  | f1Macro
  | f1Micro
  | f1Weighted
  | precisionKey
  | recallKey
  | kappaKey
deriving DecidableEq, Repr

abbrev ScalarMetrics := MetricKey → Rat

def zero_metrics : ScalarMetrics := fun _ => 0

/-- `performance[...][k] = performance[...][k] + results[k]` for each
scalar key (lines 762-766, `Confusion Matrix` skipped). -/
def add_metrics (acc m : ScalarMetrics) : ScalarMetrics := fun k => acc k + m k

/-- The per-fold summary loop `for i, config in enumerate(experiment_configs)`
with the `if i == 2 or i == 3` guard (lines 754-766): accumulate the
metric records of experiment indices 2 and 3 into the two accumulators. -/
def summary_scan (k : Nat) (ms : List ScalarMetrics)
    (p2 p3 : ScalarMetrics) : ScalarMetrics × ScalarMetrics :=
  match ms with
  | [] => (p2, p3)
  | m :: rest =>
      summary_scan (k + 1) rest
        (if k = 2 then add_metrics p2 m else p2)
        (if k = 3 then add_metrics p3 m else p3)

/-- One fold's contribution to the accumulators; the whole summary block
sits under `if verbose > 0:` (line 749). -/
def fold_accumulate (verbose : Nat) (ms : List ScalarMetrics)
    (p : ScalarMetrics × ScalarMetrics) : ScalarMetrics × ScalarMetrics :=
  if 0 < verbose then summary_scan 0 ms p.1 p.2 else p

/-- The outer leave-one-user-out loop `for j in range(len(users))`,
threading the shared accumulators through every fold. -/
def accumulate_all_folds (verbose : Nat) (folds : List (List ScalarMetrics)) :
    ScalarMetrics × ScalarMetrics :=
  folds.foldl (fun p ms => fold_accumulate verbose ms p) (zero_metrics, zero_metrics)

/-- Lines 784-791: each accumulated scalar metric of Experiment 2 and
Experiment 3 is divided by `len(users)`. -/
def finalize_average (p : ScalarMetrics × ScalarMetrics) (numUsers : Nat) :
    ScalarMetrics × ScalarMetrics :=
  (fun k => p.1 k / (numUsers : Rat), fun k => p.2 k / (numUsers : Rat))

/-- The whole scalar-metric aggregation pipeline for the two designated
experiment indices. -/
def aggregate_performance (verbose : Nat) (folds : List (List ScalarMetrics))
    (numUsers : Nat) : ScalarMetrics × ScalarMetrics :=
  finalize_average (accumulate_all_folds verbose folds) numUsers

/-- `sklearn.metrics.confusion_matrix` entry (a, b): how many positions
carry true label `a` and predicted label `b`. -/
def confusion_entry (yTrue yPred : List Nat) (a b : Nat) : Nat :=
  (yTrue.zip yPred).countP (fun q => q.1 = a ∧ q.2 = b)

/-- Lines 695-696 / 738-739: per designated index the fold loop appends
each fold's label list to a shared pool (`y_true[i-2] = y_true[i-2] + ...`). -/
def pooled_y (folds : List (List Nat)) : List Nat :=
  folds.foldl (fun acc l => acc ++ l) []

/-- Lines 796-797: the labelled-dataset aggregate confusion matrix is
computed from the globally pooled true/predicted lists. -/
def labelled_confusion_final (ytFolds ypFolds : List (List Nat))
    (a b : Nat) : Nat :=
  confusion_entry (pooled_y ytFolds) (pooled_y ypFolds) a b

/-- Concrete oracle used by witnesses and counterexamples. -/
def env0 : Env where
  loadModel := fun _ => 0
  extractHarHandle := fun _ => 0
  extractCoreHandle := fun _ => 0
  newCoreModel := 0
  attachMultitaskHandle := fun _ => 0
  attachMultitaskHarHandle := fun _ => 0
  attachFullHarHandle := fun _ => 0
  attachLinearHandle := fun _ => 0
  trainBestFileName := fun _ _ => "best_model.h5"
  predictHandle := fun _ _ => 0
  evalOnLabelledTest := fun _ _ => EvalResults.mk 0 0 0 0 0 0 0
  evalSimpleUnl := fun _ _ => EvalResults.mk 0 0 0 0 0 0 0
  loadUnlWindows := fun _ => 7
  loadUnlLabel := fun _ => 8
  labelledTrainX := fun _ => 0
  repeatLabelled := fun _ => 0
  combineUnl := fun _ _ => 9
  pickTopSamples := fun _ _ => 0
  buildMultitaskData := fun _ => 0

def pr0 : RunParams := RunParams.mk "ts" "cfg" "unl.pkl"

def prepared0 : Prepared := [("labelled", 1)]

/-- Two experiments whose second depends (offset 1) on the first. -/
def depConfigs : List Config :=
  [[("type", ConfigValue.s "har_full_train")],
   [("type", ConfigValue.s "eval_har"), ("previous_config_offset", ConfigValue.i 1)]]

/-- Four experiments: two skipped, then two trained-and-evaluated
experiments occupying the designated indices 2 and 3. -/
def fourExpConfigs : List Config :=
  [[("type", ConfigValue.s "none")],
   [("type", ConfigValue.s "none")],
   [("type", ConfigValue.s "har_full_train"), ("eval_har", ConfigValue.b true)],
   [("type", ConfigValue.s "har_full_train"), ("eval_har", ConfigValue.b true)]]

/-- A valid training experiment followed by one whose
`previous_config_offset` is out of range (5 in a 2-element list). -/
def badOffsetConfigs : List Config :=
  [[("type", ConfigValue.s "har_full_train")],
   [("type", ConfigValue.s "self_training"), ("previous_config_offset", ConfigValue.i 5)]]

def isLoadPool : Event → Bool
  | Event.loadPool _ => true
  | _ => false

def isTrainRun : Event → Bool
  | Event.trainRun _ _ => true
  | _ => false

theorem alookup_ainsert_self {α : Type} (l : List (String × α)) (k : String) (v : α) :
    alookup (ainsert l k v) k = some v := by
  induction l with
  | nil => simp [alookup, ainsert]
  | cons h t ih =>
      by_cases hk : h.1 = k
      · simp [alookup, ainsert, hk]
      · simp [alookup, ainsert, hk, ih]

theorem alookup_ainsert_of_ne {α : Type} (l : List (String × α)) (k k2 : String)
    (v : α) (hne : k2 ≠ k) : alookup (ainsert l k v) k2 = alookup l k2 := by
  induction l with
  | nil =>
      simp only [ainsert, alookup]
      rw [if_neg (fun h => hne h.symm)]
  | cons h t ih =>
      by_cases hk : h.1 = k
      · subst hk
        simp only [ainsert, if_pos rfl, alookup]
        rw [if_neg (fun h2 => hne h2.symm), if_neg (fun h2 => hne h2.symm)]
      · simp only [ainsert, if_neg hk, alookup]
        by_cases h2 : h.1 = k2
        · rw [if_pos h2, if_pos h2]
        · rw [if_neg h2, if_neg h2, ih]

theorem gcd_preserve (now : String) (cfg : Config) (e e2 : String) (sv : Bool)
    (v : ConfigValue) (cfg2 : Config)
    (h : get_config_default_value_if_none now cfg e sv = some (v, cfg2))
    (hne : e2 ≠ e) : alookup cfg2 e2 = alookup cfg e2 := by
  unfold get_config_default_value_if_none at h
  rcases hl : alookup cfg e with _ | w <;> rw [hl] at h <;> dsimp only at h
  · rcases hd : defaultFor now e with _ | d <;> rw [hd] at h <;> dsimp only at h
    · exact absurd h (by simp)
    · by_cases hsv : sv = true
      · rw [if_pos hsv] at h
        simp only [Option.some.injEq, Prod.mk.injEq] at h
        rw [← h.2, alookup_ainsert_of_ne _ _ _ _ hne]
      · rw [if_neg hsv] at h
        simp only [Option.some.injEq, Prod.mk.injEq] at h
        rw [← h.2]
  · simp only [Option.some.injEq, Prod.mk.injEq] at h
    rw [← h.2]

theorem list_set_of_length_le {α : Type} (l : List α) (i : Nat) (x : α)
    (h : l.length ≤ i) : l.set i x = l := by
  induction l generalizing i with
  | nil => simp
  | cons a t ih =>
      cases i with
      | zero => simp at h
      | succ j => simp only [List.set]; rw [ih j (by simpa using h)]

theorem getD_set_self {α : Type} (l : List α) (i : Nat) (x d : α)
    (h : i < l.length) : (l.set i x).getD i d = x := by
  induction l generalizing i with
  | nil => simp at h
  | cons a t ih =>
      cases i with
      | zero => simp [List.set, List.getD]
      | succ j =>
          simp only [List.set, List.getD] at *
          exact ih j (by simpa using h)

theorem resolveAt_length (now : String) (cs : List Config) (j : Nat)
    (e : String) (sv : Bool) (v : ConfigValue) (cs2 : List Config)
    (h : resolveAt now cs j e sv = some (v, cs2)) : cs2.length = cs.length := by
  unfold resolveAt at h
  rcases hg : get_config_default_value_if_none now (cs.getD j []) e sv with _ | ⟨w, c2⟩ <;>
    rw [hg] at h
  · exact absurd h (by simp)
  · simp only [Option.some.injEq, Prod.mk.injEq] at h
    rw [← h.2, List.length_set]

theorem resolveAt_preserve_at (now : String) (cs : List Config) (i : Nat)
    (e e2 : String) (sv : Bool) (v : ConfigValue) (cs2 : List Config)
    (h : resolveAt now cs i e sv = some (v, cs2)) (hne : e2 ≠ e) :
    alookup (cs2.getD i []) e2 = alookup (cs.getD i []) e2 := by
  unfold resolveAt at h
  rcases hg : get_config_default_value_if_none now (cs.getD i []) e sv with _ | ⟨w, c2⟩ <;>
    rw [hg] at h
  · exact absurd h (by simp)
  · simp only [Option.some.injEq, Prod.mk.injEq] at h
    rcases h with ⟨hv, hcs⟩
    subst hcs
    by_cases hi : i < cs.length
    · rw [getD_set_self _ _ _ _ hi]
      exact gcd_preserve now _ e e2 sv _ _ (by rw [hg, hv]) hne
    · rw [list_set_of_length_le _ _ _ (by omega)]

theorem resolve_previous_config_state (now : String) (cs : List Config) (i : Nat)
    (p : Option Nat) (cs2 : List Config)
    (h : resolve_previous_config now cs i = some (p, cs2)) :
    ∃ offV, resolveAt now cs i "previous_config_offset" true = some (offV, cs2) := by
  unfold resolve_previous_config at h
  rcases hr : resolveAt now cs i "previous_config_offset" true with _ | ⟨offV, cs3⟩ <;>
    rw [hr] at h <;> dsimp only at h
  · exact absurd h (by simp)
  · refine ⟨offV, ?_⟩
    by_cases hz : py_eq_zero offV
    · rw [if_pos hz] at h
      simp only [Option.some.injEq, Prod.mk.injEq] at h
      rw [h.2]
    · rw [if_neg hz] at h
      rcases ha : as_index_int offV with _ | off <;> rw [ha] at h <;> dsimp only at h
      · exact absurd h (by simp)
      · rcases hp : pyIndex cs3.length ((i : Int) - off) with _ | j <;> rw [hp] at h <;>
          dsimp only at h
        · exact absurd h (by simp)
        · simp only [Option.some.injEq, Prod.mk.injEq] at h
          rw [h.2]

theorem gcd_absent (now : String) (cfg : Config) (e : String) (d : ConfigValue)
    (hd : defaultFor now e = some d) (h : alookup cfg e = none) :
    get_config_default_value_if_none now cfg e true = some (d, ainsert cfg e d) ∧
    get_config_default_value_if_none now cfg e false = some (d, cfg) := by
  constructor <;> simp [get_config_default_value_if_none, h, hd]

/-- C4: for every field in the default table, resolving a config that
lacks the field returns exactly the documented default value (the `tag`
default being the current-timestamp string `now`); unless the caller
passes `set_value=False` the default is written back so the field is
present afterwards; a field that is already present returns its stored
value with the config unchanged. -/
theorem claim_C4_config_defaults (now : String) (cfg : Config) :
    (∀ e v sv, alookup cfg e = some v →
      get_config_default_value_if_none now cfg e sv = some (v, cfg)) ∧
    (∀ e d, alookup (ainsert cfg e d) e = some d) ∧
    (alookup cfg "type" = none →
      get_config_default_value_if_none now cfg "type" true
        = some (ConfigValue.s "none", ainsert cfg "type" (ConfigValue.s "none")) ∧
      get_config_default_value_if_none now cfg "type" false
        = some (ConfigValue.s "none", cfg)) ∧
    (alookup cfg "tag" = none →
      get_config_default_value_if_none now cfg "tag" true
        = some (ConfigValue.s now, ainsert cfg "tag" (ConfigValue.s now)) ∧
      get_config_default_value_if_none now cfg "tag" false
        = some (ConfigValue.s now, cfg)) ∧
    (alookup cfg "previous_config_offset" = none →
      get_config_default_value_if_none now cfg "previous_config_offset" true
        = some (ConfigValue.i 0, ainsert cfg "previous_config_offset" (ConfigValue.i 0)) ∧
      get_config_default_value_if_none now cfg "previous_config_offset" false
        = some (ConfigValue.i 0, cfg)) ∧
    (alookup cfg "initial_learning_rate" = none →
      get_config_default_value_if_none now cfg "initial_learning_rate" true
        = some (ConfigValue.r (3 / 10000), ainsert cfg "initial_learning_rate" (ConfigValue.r (3 / 10000))) ∧
      get_config_default_value_if_none now cfg "initial_learning_rate" false
        = some (ConfigValue.r (3 / 10000), cfg)) ∧
    (alookup cfg "epochs" = none →
      get_config_default_value_if_none now cfg "epochs" true
        = some (ConfigValue.i 30, ainsert cfg "epochs" (ConfigValue.i 30)) ∧
      get_config_default_value_if_none now cfg "epochs" false
        = some (ConfigValue.i 30, cfg)) ∧
    (alookup cfg "batch_size" = none →
      get_config_default_value_if_none now cfg "batch_size" true
        = some (ConfigValue.i 300, ainsert cfg "batch_size" (ConfigValue.i 300)) ∧
      get_config_default_value_if_none now cfg "batch_size" false
        = some (ConfigValue.i 300, cfg)) ∧
    (alookup cfg "optimizer" = none →
      get_config_default_value_if_none now cfg "optimizer" true
        = some (ConfigValue.s "adam", ainsert cfg "optimizer" (ConfigValue.s "adam")) ∧
      get_config_default_value_if_none now cfg "optimizer" false
        = some (ConfigValue.s "adam", cfg)) ∧
    (alookup cfg "self_training_samples_per_class" = none →
      get_config_default_value_if_none now cfg "self_training_samples_per_class" true
        = some (ConfigValue.i 10000, ainsert cfg "self_training_samples_per_class" (ConfigValue.i 10000)) ∧
      get_config_default_value_if_none now cfg "self_training_samples_per_class" false
        = some (ConfigValue.i 10000, cfg)) ∧
    (alookup cfg "self_training_minimum_confidence" = none →
      get_config_default_value_if_none now cfg "self_training_minimum_confidence" true
        = some (ConfigValue.r 0, ainsert cfg "self_training_minimum_confidence" (ConfigValue.r 0)) ∧
      get_config_default_value_if_none now cfg "self_training_minimum_confidence" false
        = some (ConfigValue.r 0, cfg)) ∧
    (alookup cfg "self_training_plurality_only" = none →
      get_config_default_value_if_none now cfg "self_training_plurality_only" true
        = some (ConfigValue.b true, ainsert cfg "self_training_plurality_only" (ConfigValue.b true)) ∧
      get_config_default_value_if_none now cfg "self_training_plurality_only" false
        = some (ConfigValue.b true, cfg)) ∧
    (alookup cfg "trained_model_path" = none →
      get_config_default_value_if_none now cfg "trained_model_path" true
        = some (ConfigValue.s "", ainsert cfg "trained_model_path" (ConfigValue.s "")) ∧
      get_config_default_value_if_none now cfg "trained_model_path" false
        = some (ConfigValue.s "", cfg)) ∧
    (alookup cfg "trained_model_type" = none →
      get_config_default_value_if_none now cfg "trained_model_type" true
        = some (ConfigValue.s "unknown", ainsert cfg "trained_model_type" (ConfigValue.s "unknown")) ∧
      get_config_default_value_if_none now cfg "trained_model_type" false
        = some (ConfigValue.s "unknown", cfg)) ∧
    (alookup cfg "eval_results" = none →
      get_config_default_value_if_none now cfg "eval_results" true
        = some (ConfigValue.emptyMap, ainsert cfg "eval_results" ConfigValue.emptyMap) ∧
      get_config_default_value_if_none now cfg "eval_results" false
        = some (ConfigValue.emptyMap, cfg)) ∧
    (alookup cfg "eval_har" = none →
      get_config_default_value_if_none now cfg "eval_har" true
        = some (ConfigValue.b false, ainsert cfg "eval_har" (ConfigValue.b false)) ∧
      get_config_default_value_if_none now cfg "eval_har" false
        = some (ConfigValue.b false, cfg)) := by
  refine ⟨?_, ?_, ?_, ?_, ?_, ?_, ?_, ?_, ?_, ?_, ?_, ?_, ?_, ?_, ?_, ?_⟩
  · intro e v sv h
    simp [get_config_default_value_if_none, h]
  · intro e d
    exact alookup_ainsert_self cfg e d
  all_goals exact fun h => gcd_absent now cfg _ _ rfl h

/-- Witness for C4: on the empty config, `epochs` resolves to the default
30 and is memoized; on a config already carrying `epochs`, the stored
value is returned and the config is unchanged. -/
theorem claim_C4_config_defaults_witness :
    get_config_default_value_if_none "ts" [] "epochs" true
      = some (ConfigValue.i 30, ainsert [] "epochs" (ConfigValue.i 30)) ∧
    get_config_default_value_if_none "ts" [("epochs", ConfigValue.i 7)] "epochs" true
      = some (ConfigValue.i 7, [("epochs", ConfigValue.i 7)]) :=
  ⟨((claim_C4_config_defaults "ts" []).2.2.2.2.2.2.1 rfl).1,
   (claim_C4_config_defaults "ts" [("epochs", ConfigValue.i 7)]).1 "epochs" (ConfigValue.i 7) true rfl⟩

/-- C1: with a well-formed integer offset `0 ≤ off ≤ i`, dependency
resolution yields no previous config exactly when the resolved
`previous_config_offset` is 0, and otherwise yields the config at index
`i - off` of the same list; and in the experiment loop this resolution is
the first observable action of every non-`none` experiment step, before
any branch executes. -/
theorem claim_C1_dependency_resolution (env : Env) (pr : RunParams)
    (configs configs1 configs1b : List Config) (prepared : Prepared)
    (i : Nat) (tyV : ConfigValue) (off : Int)
    (h1 : i < configs.length)
    (hA : resolveAt pr.now configs i "type" true = some (tyV, configs1))
    (hB : tyV ≠ ConfigValue.s "none")
    (hC : resolveAt pr.now configs1 i "previous_config_offset" true
      = some (ConfigValue.i off, configs1b))
    (h0 : 0 ≤ off) (hio : off ≤ (i : Int)) :
    resolve_previous_config pr.now configs1 i
      = some ((if off = 0 then none else some (i - off.toNat)), configs1b) ∧
    (experimentStep env pr configs prepared i).events.head?
      = some (Event.resolvedPrev i (if off = 0 then none else some (i - off.toNat))) := by
  have hlen1 : configs1.length = configs.length := resolveAt_length _ _ _ _ _ _ _ hA
  have hlen1b : configs1b.length = configs1.length := resolveAt_length _ _ _ _ _ _ _ hC
  have hres : resolve_previous_config pr.now configs1 i
      = some ((if off = 0 then none else some (i - off.toNat)), configs1b) := by
    unfold resolve_previous_config
    rw [hC]
    by_cases hz : off = 0
    · subst hz
      simp [py_eq_zero]
    · have hpi : pyIndex configs1b.length ((i : Int) - off) = some (i - off.toNat) := by
        unfold pyIndex
        rw [if_pos (by constructor <;> omega)]
        congr 1
        omega
      simp [py_eq_zero, hz, as_index_int, hpi]
  refine ⟨hres, ?_⟩
  unfold experimentStep
  rw [hA]
  dsimp only
  rw [if_neg hB, hres]
  dsimp only
  rfl

/-- Witness for C1: a two-experiment list whose second experiment
(offset 1) resolves to the first. -/
theorem claim_C1_dependency_resolution_witness :
    resolve_previous_config pr0.now depConfigs 1 = some (some 0, depConfigs) ∧
    (experimentStep env0 pr0 depConfigs prepared0 1).events.head?
      = some (Event.resolvedPrev 1 (some 0)) :=
  claim_C1_dependency_resolution env0 pr0 depConfigs depConfigs depConfigs prepared0 1
    (ConfigValue.s "eval_har") 1 (by decide) (by decide) (by decide) (by decide)
    (by decide) (by decide)

/-- C2: when the resolved previous config is absent or has an empty
`trained_model_path`, an `eval_har` experiment logs an error and skips to
the next experiment leaving its own `eval_results` unchanged, whereas a
`self_training` / `self_har` experiment aborts all remaining experiments
of the fold (`break`) with a logged error. -/
theorem claim_C2_missing_dependency (env : Env) (pr : RunParams)
    (configs configs1 configs2 configs3 : List Config) (prepared : Prepared)
    (i : Nat) (tyV tagV : ConfigValue) (prev : Option Nat)
    (h1 : i < configs.length)
    (h2 : resolveAt pr.now configs i "type" true = some (tyV, configs1))
    (h3 : resolve_previous_config pr.now configs1 i = some (prev, configs2))
    (h4 : resolveAt pr.now configs2 i "tag" true = some (tagV, configs3)) :
    (tyV = ConfigValue.s "eval_har" →
      missing_previous_model pr.now configs3 prev = true →
      experimentStep env pr configs prepared i
        = StepRes.mk StepOutcome.next configs3 prepared
            [Event.resolvedPrev i prev, Event.evalMissing i] ∧
      alookup (configs3.getD i []) "eval_results"
        = alookup (configs.getD i []) "eval_results" ∧
      (∀ fuel tr, runSteps env pr (fuel + 1) i (FoldSt.mk configs prepared tr)
        = runSteps env pr fuel (i + 1)
            (FoldSt.mk configs3 prepared
              (tr ++ [Event.resolvedPrev i prev, Event.evalMissing i])))) ∧
    ((tyV = ConfigValue.s "self_training" ∨ tyV = ConfigValue.s "self_har") →
      ∀ ilrV epochsV batchV optV c4 c5 c6 c7 ilr,
      resolveAt pr.now configs3 i "initial_learning_rate" true = some (ilrV, c4) →
      resolveAt pr.now c4 i "epochs" true = some (epochsV, c5) →
      resolveAt pr.now c5 i "batch_size" true = some (batchV, c6) →
      resolveAt pr.now c6 i "optimizer" true = some (optV, c7) →
      asRat ilrV = some ilr →
      (optV = ConfigValue.s "adam" ∨ optV = ConfigValue.s "sgd") →
      missing_previous_model pr.now c7 prev = true →
      experimentStep env pr configs prepared i
        = StepRes.mk StepOutcome.abortFold c7
            (ensure_unlabelled env prepared pr.unlabelledPath).1
            (Event.resolvedPrev i prev ::
              ((if (ensure_unlabelled env prepared pr.unlabelledPath).2
                then [Event.loadPool i] else []) ++ [Event.selfMissing i])) ∧
      (∀ fuel tr, runSteps env pr (fuel + 1) i (FoldSt.mk configs prepared tr)
        = FoldSt.mk c7 (ensure_unlabelled env prepared pr.unlabelledPath).1
            (tr ++ Event.resolvedPrev i prev ::
              ((if (ensure_unlabelled env prepared pr.unlabelledPath).2
                then [Event.loadPool i] else []) ++ [Event.selfMissing i])))) := by
  constructor
  · intro hty hmiss
    subst hty
    have hdisp : dispatch_experiment env pr configs2 prepared i prev (ConfigValue.s "eval_har")
        = StepRes.mk StepOutcome.next configs3 prepared [Event.evalMissing i] := by
      unfold dispatch_experiment
      rw [h4]
      dsimp only
      rw [if_pos rfl]
      unfold eval_har_branch
      rw [if_pos hmiss]
    have hstep : experimentStep env pr configs prepared i
        = StepRes.mk StepOutcome.next configs3 prepared
            [Event.resolvedPrev i prev, Event.evalMissing i] := by
      unfold experimentStep
      rw [h2]
      dsimp only
      rw [if_neg (by decide), h3]
      dsimp only
      rw [hdisp]
    refine ⟨hstep, ?_, ?_⟩
    · obtain ⟨offV, hoff⟩ := resolve_previous_config_state _ _ _ _ _ h3
      have p4 := resolveAt_preserve_at _ _ _ _ "eval_results" _ _ _ h4 (by decide)
      have p3 := resolveAt_preserve_at _ _ _ _ "eval_results" _ _ _ hoff (by decide)
      have p2 := resolveAt_preserve_at _ _ _ _ "eval_results" _ _ _ h2 (by decide)
      rw [p4, p3, p2]
    · intro fuel tr
      simp only [runSteps]
      rw [if_pos (by simpa using h1), hstep]
  · intro hty ilrV epochsV batchV optV c4 c5 c6 c7 ilr hilr hep hbs hopt hrat hoptok hmiss
    have hb : ∀ tg sh, self_branch env pr tg c7 prepared i prev sh
        = StepRes.mk StepOutcome.abortFold c7
            (ensure_unlabelled env prepared pr.unlabelledPath).1
            ((if (ensure_unlabelled env prepared pr.unlabelledPath).2
              then [Event.loadPool i] else []) ++ [Event.selfMissing i]) := by
      intro tg sh
      unfold self_branch
      rw [if_pos hmiss]
    have hdisp : ∀ ty2, (ty2 = ConfigValue.s "self_training" ∨ ty2 = ConfigValue.s "self_har") →
        dispatch_experiment env pr configs2 prepared i prev ty2
        = StepRes.mk StepOutcome.abortFold c7
            (ensure_unlabelled env prepared pr.unlabelledPath).1
            ((if (ensure_unlabelled env prepared pr.unlabelledPath).2
              then [Event.loadPool i] else []) ++ [Event.selfMissing i]) := by
      intro ty2 hty2
      unfold dispatch_experiment
      rw [h4]
      dsimp only
      rcases hty2 with hty2 | hty2 <;> subst hty2 <;>
        rw [if_neg (by decide), hilr] <;> dsimp only <;>
        rw [hep] <;> dsimp only <;>
        rw [hbs] <;> dsimp only <;>
        rw [hopt] <;> dsimp only <;>
        rw [hrat] <;> dsimp only <;>
        rw [if_pos hoptok, if_neg (by decide), if_neg (by decide), if_neg (by decide),
          if_neg (by decide), if_pos (by first | exact Or.inl rfl | exact Or.inr rfl), hb]
    have hstep : experimentStep env pr configs prepared i
        = StepRes.mk StepOutcome.abortFold c7
            (ensure_unlabelled env prepared pr.unlabelledPath).1
            (Event.resolvedPrev i prev ::
              ((if (ensure_unlabelled env prepared pr.unlabelledPath).2
                then [Event.loadPool i] else []) ++ [Event.selfMissing i])) := by
      unfold experimentStep
      rw [h2]
      dsimp only
      rcases hty with hty | hty <;> subst hty <;>
        rw [if_neg (by decide), h3] <;> dsimp only <;>
        rw [hdisp _ (by first | exact Or.inl rfl | exact Or.inr rfl)]
    refine ⟨hstep, ?_⟩
    intro fuel tr
    simp only [runSteps]
    rw [if_pos (by simpa using h1), hstep]

/-- Witness for C2: the second experiment of `depConfigs` is an
`eval_har` whose previous config (index 0) has no trained artifact yet:
the step logs the error, skips, and writes nothing but the memoized
`tag`. -/
theorem claim_C2_missing_dependency_witness :
    experimentStep env0 pr0 depConfigs prepared0 1
      = StepRes.mk StepOutcome.next
          [[("type", ConfigValue.s "har_full_train")],
           [("type", ConfigValue.s "eval_har"),
            ("previous_config_offset", ConfigValue.i 1),
            ("tag", ConfigValue.s "ts")]]
          prepared0 [Event.resolvedPrev 1 (some 0), Event.evalMissing 1] :=
  ((claim_C2_missing_dependency env0 pr0 depConfigs depConfigs depConfigs
      [[("type", ConfigValue.s "har_full_train")],
       [("type", ConfigValue.s "eval_har"),
        ("previous_config_offset", ConfigValue.i 1),
        ("tag", ConfigValue.s "ts")]]
      prepared0 1 (ConfigValue.s "eval_har") (ConfigValue.s "ts") (some 0)
      (by decide) (by decide) (by decide) (by decide)).1 rfl (by decide)).1

/-- Counterexample for C3: in the fold run over `fourExpConfigs` the
unlabelled-pool loader is invoked twice (once by each of the designated
eval branches at experiment indices 2 and 3), so the cache entry is NOT
populated at most once per fold. -/
theorem claim_C3_counterexample :
    ¬ (((runExperiments env0 pr0 fourExpConfigs prepared0).trace.countP isLoadPool) ≤ 1) := by
  decide

/-- C3 (amended): the guarded sites (`transform_train`,
`self_training` / `self_har`) do populate the pool lazily — when
`unlabelled` is already cached, `ensure_unlabelled` neither reloads nor
changes the cache — but the designated eval branches at experiment
indices 2 and 3 re-invoke `load_unlabelled_dataset` unconditionally,
overwriting the cache's `unlabelled` entry with a freshly loaded value
even when it is already populated. -/
theorem claim_C3_amended :
    (∀ (env : Env) (pd : Prepared) (path : String),
      containsPD pd "unlabelled" = true → ensure_unlabelled env pd path = (pd, false)) ∧
    (∀ (env : Env) (pr : RunParams) (pd : Prepared),
      (experimentStep env pr fourExpConfigs pd 2).events
        = [Event.resolvedPrev 2 none, Event.freezeCall 2 (some 0),
           Event.trainRun 2 (Sched.constantRate (3 / 10000)), Event.loadPool 2,
           Event.evalWritten 2] ∧
      alookup (experimentStep env pr fourExpConfigs pd 2).prepared "unlabelled"
        = some (env.loadUnlWindows pr.unlabelledPath)) := by
  constructor
  · intro env pd path h
    unfold ensure_unlabelled
    rw [if_pos h]
  · intro env pr pd
    refine ⟨rfl, ?_⟩
    have hprep : (experimentStep env pr fourExpConfigs pd 2).prepared
        = ainsert pd "unlabelled" (env.loadUnlWindows pr.unlabelledPath) := rfl
    rw [hprep, alookup_ainsert_self]

/-- Witness for C3 (amended): a cache that already holds `unlabelled` is
returned unchanged by the guarded loader. -/
theorem claim_C3_amended_witness :
    ensure_unlabelled env0 [("unlabelled", 5)] "p" = ([("unlabelled", 5)], false) :=
  claim_C3_amended.1 env0 [("unlabelled", 5)] "p" (by decide)

/-- Generic trace monotonicity of the experiment loop: each step only
appends events. -/
theorem runSteps_trace_prefix (env : Env) (pr : RunParams) :
    ∀ fuel i st, ∃ t, (runSteps env pr fuel i st).trace = st.trace ++ t := by
  intro fuel
  induction fuel with
  | zero => intro i st; exact ⟨[], by simp [runSteps]⟩
  | succ n ih =>
      intro i st
      simp only [runSteps]
      by_cases h : i < st.configs.length
      · rw [if_pos h]
        rcases hout : (experimentStep env pr st.configs st.prepared i).outcome with _ | _ | _ <;>
          dsimp only
        · obtain ⟨t2, ht2⟩ := ih (i + 1)
            (FoldSt.mk (experimentStep env pr st.configs st.prepared i).configs
              (experimentStep env pr st.configs st.prepared i).prepared
              (st.trace ++ (experimentStep env pr st.configs st.prepared i).events))
          exact ⟨(experimentStep env pr st.configs st.prepared i).events ++ t2,
            by rw [ht2]; simp⟩
        · exact ⟨(experimentStep env pr st.configs st.prepared i).events, rfl⟩
        · exact ⟨(experimentStep env pr st.configs st.prepared i).events, rfl⟩
      · rw [if_neg h]
        exact ⟨[], by simp⟩

/-- Unfolding lemma: a step with `next` outcome hands control to the
following experiment. -/
theorem runSteps_succ_next (env : Env) (pr : RunParams) (fuel i : Nat) (st : FoldSt)
    (h : i < st.configs.length)
    (ho : (experimentStep env pr st.configs st.prepared i).outcome = StepOutcome.next) :
    runSteps env pr (fuel + 1) i st
      = runSteps env pr fuel (i + 1)
          (FoldSt.mk (experimentStep env pr st.configs st.prepared i).configs
            (experimentStep env pr st.configs st.prepared i).prepared
            (st.trace ++ (experimentStep env pr st.configs st.prepared i).events)) := by
  simp only [runSteps]
  rw [if_pos h, ho]

/-- Counterexample for C8: running `badOffsetConfigs` — whose second
experiment carries the invalid forward offset 5 — trains the first
experiment and only then crashes at the second experiment's dispatch: no
validation pass rejected the configuration error before training began. -/
theorem claim_C8_counterexample :
    ¬ ((runExperiments env0 pr0 badOffsetConfigs prepared0).trace.countP isTrainRun = 0) ∧
    (runExperiments env0 pr0 badOffsetConfigs prepared0).trace.getLast?
      = some (Event.crashed 1) := by
  constructor <;> decide

set_option maxHeartbeats 1000000 in
/-- C8 (amended): configuration errors are NOT rejected by any upfront
validation pass.  An invalid `previous_config_offset` surfaces only when
the offending step itself is dispatched: an offset putting `i - off`
outside Python's index range crashes there, while an offset making
`i - off` negative but in range is silently accepted as a wrap-around
(forward!) dependency; and the loop trains earlier experiments before the
offending config is ever inspected. -/
theorem claim_C8_amended :
    (∀ (now : String) (configs configs2 : List Config) (i : Nat) (off : Int),
      resolveAt now configs i "previous_config_offset" true = some (ConfigValue.i off, configs2) →
      off ≠ 0 →
      ((((i : Int) - off < -(configs2.length : Int)) ∨
          ((configs2.length : Int) ≤ (i : Int) - off)) →
        resolve_previous_config now configs i = none) ∧
      (-(configs2.length : Int) ≤ (i : Int) - off → (i : Int) - off < 0 →
        resolve_previous_config now configs i
          = some (some ((configs2.length : Int) + ((i : Int) - off)).toNat, configs2))) ∧
    (∀ (env : Env) (pr : RunParams) (cbad : Config) (prepared : Prepared),
      ∃ rest,
        (runExperiments env pr [[("type", ConfigValue.s "har_full_train")], cbad] prepared).trace
          = [Event.resolvedPrev 0 none, Event.freezeCall 0 (some 0),
             Event.trainRun 0 (Sched.constantRate (3 / 10000))] ++ rest) := by
  constructor
  · intro now configs configs2 i off hres hz
    constructor
    · intro hout
      unfold resolve_previous_config
      rw [hres]
      have hb : py_eq_zero (ConfigValue.i off) = false := by simp [py_eq_zero, hz]
      have hpi : pyIndex configs2.length ((i : Int) - off) = none := by
        unfold pyIndex
        rw [if_neg (by omega), if_neg (by omega)]
      simp [hb, as_index_int, hpi]
    · intro hlo hhi
      unfold resolve_previous_config
      rw [hres]
      have hb : py_eq_zero (ConfigValue.i off) = false := by simp [py_eq_zero, hz]
      have hpi : pyIndex configs2.length ((i : Int) - off)
          = some ((configs2.length : Int) + ((i : Int) - off)).toNat := by
        unfold pyIndex
        rw [if_neg (by omega), if_pos (by constructor <;> omega)]
      simp [hb, as_index_int, hpi]
  · intro env pr cbad prepared
    have hout : (experimentStep env pr [[("type", ConfigValue.s "har_full_train")], cbad] prepared 0).outcome
        = StepOutcome.next := rfl
    have hev : (experimentStep env pr [[("type", ConfigValue.s "har_full_train")], cbad] prepared 0).events
        = [Event.resolvedPrev 0 none, Event.freezeCall 0 (some 0),
           Event.trainRun 0 (Sched.constantRate (3 / 10000))] := rfl
    obtain ⟨t, ht⟩ := runSteps_trace_prefix env pr 1 1
      (FoldSt.mk
        (experimentStep env pr [[("type", ConfigValue.s "har_full_train")], cbad] prepared 0).configs
        (experimentStep env pr [[("type", ConfigValue.s "har_full_train")], cbad] prepared 0).prepared
        ([] ++ (experimentStep env pr [[("type", ConfigValue.s "har_full_train")], cbad] prepared 0).events))
    refine ⟨t, ?_⟩
    rw [show runExperiments env pr [[("type", ConfigValue.s "har_full_train")], cbad] prepared
        = runSteps env pr (1 + 1) 0
            (FoldSt.mk [[("type", ConfigValue.s "har_full_train")], cbad] prepared []) from rfl]
    rw [runSteps_succ_next env pr 1 0
      (FoldSt.mk [[("type", ConfigValue.s "har_full_train")], cbad] prepared [])
      (by simp) hout]
    simp only [Nat.zero_add]
    rw [ht]
    rw [hev]
    simp

/-- Witness for C8 (amended): the out-of-range offset 5 of
`badOffsetConfigs` crashes dependency resolution at its own dispatch. -/
theorem claim_C8_amended_witness :
    resolve_previous_config pr0.now badOffsetConfigs 1 = none :=
  (claim_C8_amended.1 pr0.now badOffsetConfigs badOffsetConfigs 1 5
    (by decide) (by decide)).1 (by decide)

/-- C6: the `transform_train` branch trains with the step-decayed
schedule `initial_learning_rate * 0.5 ^ (epoch // 15)` — halving every 15
epochs — while the three `har_*` branches train with the constant
schedule equal to `initial_learning_rate` at every epoch. -/
theorem claim_C6_learning_rate_schedules :
    (∀ (ilr : Rat) (e : Nat),
      training_rate_schedule_transform ilr e = ilr * (1 / 2 : Rat) ^ (e / 15) ∧
      training_rate_schedule_transform ilr (e + 15)
        = training_rate_schedule_transform ilr e / 2 ∧
      training_rate_schedule_har ilr e = ilr) ∧
    (∀ (env : Env) (pr : RunParams) (tag : String) (configs : List Config)
       (prepared : Prepared) (i : Nat) (prev : Option Nat) (ilr : Rat),
      Event.trainRun i (Sched.transformDecay ilr)
        ∈ (transform_train_branch env pr tag configs prepared i prev ilr).events ∧
      (Sched.transformDecay ilr).rate = training_rate_schedule_transform ilr) ∧
    (∀ (env : Env) (pr : RunParams) (tag : String) (configs : List Config)
       (prepared : Prepared) (i : Nat) (prev : Option Nat) (mode : HarMode) (ilr : Rat),
      (har_branch env pr tag configs prepared i prev mode ilr).events
        = [Event.freezeCall i (freeze_boundary mode),
           Event.trainRun i (Sched.constantRate ilr)] ∧
      (Sched.constantRate ilr).rate = training_rate_schedule_har ilr) := by
  refine ⟨?_, ?_, ?_⟩
  · intro ilr e
    refine ⟨rfl, ?_, rfl⟩
    unfold training_rate_schedule_transform
    rw [show (e + 15) / 15 = e / 15 + 1 by omega, pow_succ]
    ring
  · intro env pr tag configs prepared i prev ilr
    refine ⟨?_, rfl⟩
    rcases hguard : (ensure_unlabelled env prepared pr.unlabelledPath).2 <;>
      simp [transform_train_branch, hguard]
  · intro env pr tag configs prepared i prev mode ilr
    exact ⟨rfl, rfl⟩

theorem set_freeze_layers_none_get {α : Type} (layers : List (α × Bool)) (k : Nat) :
    (set_freeze_layers layers none)[k]? = layers[k]?.map (fun l => (l.1, false)) := by
  simp [set_freeze_layers, List.getElem?_map]

theorem set_freeze_layers_some_get {α : Type} (layers : List (α × Bool)) (n k : Nat) :
    (set_freeze_layers layers (some n))[k]? = layers[k]?.map (fun l => (l.1, decide (n ≤ k))) := by
  induction layers generalizing n k with
  | nil => simp [set_freeze_layers]
  | cons x ls ih =>
      cases n with
      | zero =>
          have hz : set_freeze_layers (x :: ls) (some 0)
              = List.map (fun l => ((l : α × Bool).1, true)) (x :: ls) := rfl
          rw [hz, List.getElem?_map]
          simp
      | succ m =>
          cases k with
          | zero =>
              simp [set_freeze_layers]
          | succ k2 =>
              have hc : set_freeze_layers (x :: ls) (some (m + 1))
                  = (x.1, false) :: set_freeze_layers ls (some m) := rfl
              rw [hc]
              simp only [List.getElem?_cons_succ]
              rw [ih]
              simp [Nat.succ_le_succ_iff]

/-- C7: layer freezing matches the experiment mode — `har_linear_train`
passes no boundary (every layer non-trainable), `har_full_train` passes 0
(every layer trainable), `har_full_fine_tune` passes 5 (layers before
index 5 non-trainable, from 5 on trainable); the HAR branch emits exactly
that `set_freeze_layers` boundary for its mode. -/
theorem claim_C7_layer_freezing {α : Type} (layers : List (α × Bool)) (k : Nat) :
    (set_freeze_layers layers none)[k]? = layers[k]?.map (fun l => (l.1, false)) ∧
    (set_freeze_layers layers (some 0))[k]? = layers[k]?.map (fun l => (l.1, true)) ∧
    (set_freeze_layers layers (some 5))[k]? = layers[k]?.map (fun l => (l.1, decide (5 ≤ k))) ∧
    freeze_boundary HarMode.linearTrain = none ∧
    freeze_boundary HarMode.fullTrain = some 0 ∧
    freeze_boundary HarMode.fullFineTune = some 5 ∧
    (∀ (env : Env) (pr : RunParams) (tag : String) (configs : List Config)
       (prepared : Prepared) (i : Nat) (prev : Option Nat) (mode : HarMode) (ilr : Rat),
      (har_branch env pr tag configs prepared i prev mode ilr).events.head?
        = some (Event.freezeCall i (freeze_boundary mode))) := by
  refine ⟨set_freeze_layers_none_get layers k, ?_, set_freeze_layers_some_get layers 5 k,
    rfl, rfl, rfl, fun _ _ _ _ _ _ _ _ _ => rfl⟩
  rw [set_freeze_layers_some_get layers 0 k]
  simp

/-- C9: every head-attachment function places the core model at layer
index 1 of the composite model, so `extract_core_model` recovers exactly
the core model the head was attached to. -/
theorem claim_C9_core_model_roundtrip (coreModel : List KLayer)
    (outputShape numUnits harOutputShape numUnitsHar : Nat)
    (outputTasks : List String) (withHarHead : Bool) :
    extract_core_model (attach_full_har_classification_head coreModel outputShape numUnits)
      = some (KLayer.subModel coreModel) ∧
    extract_core_model (attach_linear_classification_head coreModel outputShape)
      = some (KLayer.subModel coreModel) ∧
    extract_core_model
        (attach_multitask_transform_head coreModel outputTasks withHarHead
          harOutputShape numUnitsHar).1
      = some (KLayer.subModel coreModel) :=
  ⟨rfl, rfl, rfl⟩

theorem extract_har_model_last (l : List OutputHead) (a : OutputHead) :
    extract_har_model (l ++ [a]) (-1) = some [a] := by
  unfold extract_har_model
  have hlen : (l ++ [a]).length = l.length + 1 := by simp
  have hpi : pyIndex (l ++ [a]).length (-1) = some l.length := by
    unfold pyIndex
    rw [hlen, if_neg (by omega), if_pos (by constructor <;> omega)]
    congr 1
    omega
  rw [hpi]
  simp

/-- C10: for a multi-task model built with `with_har_head=True`, the HAR
softmax head is appended after all transformation-task outputs — it is
always the last output — so `extract_har_model` with the default output
index -1 yields a model whose single output is the HAR head. -/
theorem claim_C10_har_output_last (coreModel : List KLayer)
    (outputTasks : List String) (harOutputShape numUnitsHar : Nat) :
    (attach_multitask_transform_head coreModel outputTasks true harOutputShape numUnitsHar).2
      = outputTasks.map OutputHead.taskOut ++ [OutputHead.harOut] ∧
    (attach_multitask_transform_head coreModel outputTasks true
        harOutputShape numUnitsHar).2.getLast? = some OutputHead.harOut ∧
    extract_har_model
        (attach_multitask_transform_head coreModel outputTasks true
          harOutputShape numUnitsHar).2 (-1)
      = some [OutputHead.harOut] := by
  refine ⟨rfl, ?_, extract_har_model_last _ _⟩
  show (outputTasks.map OutputHead.taskOut ++ [OutputHead.harOut]).getLast?
      = some OutputHead.harOut
  simp

theorem summary_scan_ge (ms : List ScalarMetrics) :
    ∀ (k : Nat) (p2 p3 : ScalarMetrics), 4 ≤ k → summary_scan k ms p2 p3 = (p2, p3) := by
  induction ms with
  | nil => intro k p2 p3 h; rfl
  | cons m rest ih =>
      intro k p2 p3 h
      unfold summary_scan
      rw [if_neg (by omega), if_neg (by omega)]
      exact ih (k + 1) p2 p3 (by omega)

theorem summary_scan_zero (ms : List ScalarMetrics) (p2 p3 : ScalarMetrics)
    (h : 4 ≤ ms.length) :
    summary_scan 0 ms p2 p3
      = (add_metrics p2 (ms.getD 2 zero_metrics), add_metrics p3 (ms.getD 3 zero_metrics)) := by
  rcases ms with _ | ⟨a, _ | ⟨b, _ | ⟨c, _ | ⟨d, rest⟩⟩⟩⟩ <;> simp at h
  have h1 : summary_scan 0 (a :: b :: c :: d :: rest) p2 p3
      = summary_scan 4 rest (add_metrics p2 c) (add_metrics p3 d) := rfl
  rw [h1, summary_scan_ge rest 4 _ _ (by norm_num)]
  rfl

theorem accumulate_folds_spec (verbose : Nat) (hv : 0 < verbose) :
    ∀ (folds : List (List ScalarMetrics)) (q : ScalarMetrics × ScalarMetrics) (k : MetricKey),
      (∀ ms ∈ folds, 4 ≤ ms.length) →
      (folds.foldl (fun p ms => fold_accumulate verbose ms p) q).1 k
          = q.1 k + (folds.map (fun ms => ms.getD 2 zero_metrics k)).sum ∧
      (folds.foldl (fun p ms => fold_accumulate verbose ms p) q).2 k
          = q.2 k + (folds.map (fun ms => ms.getD 3 zero_metrics k)).sum := by
  intro folds
  induction folds with
  | nil => intro q k h; simp
  | cons ms fs ih =>
      intro q k h
      simp only [List.foldl_cons, List.map_cons, List.sum_cons]
      have h4 : 4 ≤ ms.length := h ms (by simp)
      have hf : fold_accumulate verbose ms q
          = (add_metrics q.1 (ms.getD 2 zero_metrics), add_metrics q.2 (ms.getD 3 zero_metrics)) := by
        unfold fold_accumulate
        rw [if_pos hv, summary_scan_zero _ _ _ h4]
      rw [hf]
      obtain ⟨i1, i2⟩ := ih (add_metrics q.1 (ms.getD 2 zero_metrics),
        add_metrics q.2 (ms.getD 3 zero_metrics)) k (fun m hm => h m (by simp [hm]))
      constructor
      · rw [i1]; simp [add_metrics]; ring
      · rw [i2]; simp [add_metrics]; ring

theorem pooled_y_eq_join (folds : List (List Nat)) : pooled_y folds = folds.flatten := by
  have hgen : ∀ (fs : List (List Nat)) (acc : List Nat),
      List.foldl (fun a l => a ++ l) acc fs = acc ++ fs.flatten := by
    intro fs
    induction fs with
    | nil => intro acc; simp
    | cons l ls ih => intro acc; simp [List.foldl_cons, ih]
  simpa [pooled_y] using hgen folds []

theorem confusion_entry_append (y1 y2 z1 z2 : List Nat)
    (h : y1.length = z1.length) (a b : Nat) :
    confusion_entry (y1 ++ y2) (z1 ++ z2) a b
      = confusion_entry y1 z1 a b + confusion_entry y2 z2 a b := by
  unfold confusion_entry
  rw [List.zip_append h, List.countP_append]

theorem pooled_confusion_sum (foldPairs : List (List Nat × List Nat))
    (hal : ∀ p ∈ foldPairs, p.1.length = p.2.length) (a b : Nat) :
    confusion_entry (foldPairs.map Prod.fst).flatten (foldPairs.map Prod.snd).flatten a b
      = (foldPairs.map (fun p => confusion_entry p.1 p.2 a b)).sum := by
  induction foldPairs with
  | nil => simp [confusion_entry]
  | cons p ps ih =>
      simp only [List.map_cons, List.flatten_cons, List.sum_cons]
      rw [confusion_entry_append _ _ _ _ (hal p (by simp)) a b,
        ih (fun q hq => hal q (by simp [hq]))]

/-- C5: for the designated experiment indices 2 and 3, each aggregated
scalar metric equals the sum of the per-fold values divided by the number
of users, while the labelled-dataset aggregate confusion matrix is
instead computed from the globally pooled true/predicted label lists
concatenated across all folds — each pooled entry being the SUM (not the
average) of the per-fold entries. -/
theorem claim_C5_aggregation (verbose numUsers : Nat)
    (folds : List (List ScalarMetrics)) (foldPairs : List (List Nat × List Nat))
    (hv : 0 < verbose) (hlen : ∀ ms ∈ folds, 4 ≤ ms.length)
    (hal : ∀ p ∈ foldPairs, p.1.length = p.2.length) :
    (∀ k, (aggregate_performance verbose folds numUsers).1 k
        = (folds.map (fun ms => ms.getD 2 zero_metrics k)).sum / (numUsers : Rat)) ∧
    (∀ k, (aggregate_performance verbose folds numUsers).2 k
        = (folds.map (fun ms => ms.getD 3 zero_metrics k)).sum / (numUsers : Rat)) ∧
    (∀ a b, labelled_confusion_final (foldPairs.map Prod.fst) (foldPairs.map Prod.snd) a b
        = (foldPairs.map (fun p => confusion_entry p.1 p.2 a b)).sum) := by
  refine ⟨?_, ?_, ?_⟩
  · intro k
    obtain ⟨i1, _⟩ := accumulate_folds_spec verbose hv folds
      (zero_metrics, zero_metrics) k hlen
    unfold aggregate_performance finalize_average accumulate_all_folds
    dsimp only
    rw [i1]
    simp [zero_metrics]
  · intro k
    obtain ⟨_, i2⟩ := accumulate_folds_spec verbose hv folds
      (zero_metrics, zero_metrics) k hlen
    unfold aggregate_performance finalize_average accumulate_all_folds
    dsimp only
    rw [i2]
    simp [zero_metrics]
  · intro a b
    unfold labelled_confusion_final
    rw [pooled_y_eq_join, pooled_y_eq_join]
    exact pooled_confusion_sum foldPairs hal a b

/-- Witness for C5: one fold over four experiment records and one pooled
label pair. -/
theorem claim_C5_aggregation_witness :
    (aggregate_performance 1 [[zero_metrics, zero_metrics, zero_metrics, zero_metrics]] 2).1
        MetricKey.f1Macro
      = (([[zero_metrics, zero_metrics, zero_metrics, zero_metrics]].map
          (fun ms => ms.getD 2 zero_metrics MetricKey.f1Macro)).sum) / (2 : Rat) ∧
    labelled_confusion_final ([([0, 1], [0, 0])].map Prod.fst)
        ([([0, 1], [0, 0])].map Prod.snd) 0 0
      = (([([0, 1], [0, 0])] : List (List Nat × List Nat)).map
          (fun p => confusion_entry p.1 p.2 0 0)).sum :=
  ⟨(claim_C5_aggregation 1 2 [[zero_metrics, zero_metrics, zero_metrics, zero_metrics]]
      [([0, 1], [0, 0])] (by norm_num)
      (by intro ms hms; rw [List.mem_singleton] at hms; subst hms; simp)
      (by intro p hp; rw [List.mem_singleton] at hp; subst hp; rfl)).1 MetricKey.f1Macro,
   (claim_C5_aggregation 1 2 [[zero_metrics, zero_metrics, zero_metrics, zero_metrics]]
      [([0, 1], [0, 0])] (by norm_num)
      (by intro ms hms; rw [List.mem_singleton] at hms; subst hms; simp)
      (by intro p hp; rw [List.mem_singleton] at hp; subst hp; rfl)).2.2 0 0⟩
